import Mathlib

/-!
Verification development for the StressEase backend (`stressease` Python package).

Each Python function relevant to the verified claims is shallowly embedded as a
Lean definition.  External collaborators (the Firestore document store and the
Gemini text-generation models) are modelled as oracle fields of explicit
environment structures: an `Except Unit _` field records whether the
corresponding remote call raises, and its `.ok` payload records what the call
returns.  Python `int` is embedded as `ℤ` (or `ℕ` for counters/timestamps),
Python `float` in the prediction service as `ℚ`, Python strings as `String`.
-/

/-! ## Python string primitives

`pyIsSpace` is the ASCII whitespace set recognised by `str.strip`;
`pyStrip` models `s.strip()`, `pyLower` models `s.lower()` (ASCII case
folding, which covers every keyword the services compare against), and
`pyContains h n` models the Python substring test `n in h`. -/

def pyIsSpace (c : Char) : Bool :=
  c == ' ' || c == '\t' || c == '\n' || c == '\r' || c == '\x0b' || c == '\x0c'

def pyStrip (s : String) : String :=
  String.mk (((s.data.dropWhile pyIsSpace).reverse.dropWhile pyIsSpace).reverse)

def pyLower (s : String) : String :=
  String.mk (s.data.map Char.toLower)

def pyContains (haystack needle : String) : Bool :=
  decide (needle.data <:+: haystack.data)

/-! ## Prediction service (`stressease/services/prediction/prediction_service.py`)

The structured output parsed from the Gemini call is the oracle `llmRaw`:
`none` models every failure mode of `_predict_with_llm` (the adapter raising,
`base_llm` being uninitialized, or malformed output failing the Pydantic
parser — all of which make `predict_stress` fall through to
`_fallback_prediction`). -/

structure LlmRaw where
  stressProbability : ℚ
  label : String
  confidence : ℚ
deriving DecidableEq

structure PredictEnv where
  llmRaw : Option LlmRaw
  tomorrow : String
deriving DecidableEq

structure PredictionOutput where
  date : String
  stressProbability : ℚ
  label : String
  confidence : ℚ
  basedOnMood : ℚ
  basedOnChat : ℤ
  basedOnQuiz : ℤ
deriving DecidableEq

/-- `max(0.0, min(1.0, x))` as used to clamp probabilities and confidences. -/
def clamp01 (x : ℚ) : ℚ := max 0 (min 1 x)

/-- The threshold → label mapping used in both prediction paths. -/
def stressLabel (p : ℚ) : String :=
  if p ≥ 7/10 then "High" else if p ≥ 4/10 then "Medium" else "Low"

/-- Python `round(x, 2)` evaluated on the exact rational value
(ties, which the decimal half-even rule would distinguish, do not arise in
the verified facts). -/
def round2 (x : ℚ) : ℚ := ((⌊x * 100 + 1/2⌋ : ℤ) : ℚ) / 100

/-- `_predict_with_llm`: on any failure `none`; otherwise clamp both floats
and recompute the label from the clamped probability, discarding the label
the model suggested. -/
def predictWithLlm (env : PredictEnv) : Option (ℚ × String × ℚ) :=
  match env.llmRaw with
  | none => none
  | some raw =>
    let p := clamp01 raw.stressProbability
    let c := clamp01 raw.confidence
    some (p, stressLabel p, c)

/-- `_fallback_prediction`: deterministic weighted formula, clamped, with the
probability rounded to two decimals and a fixed confidence of `0.65`. -/
def fallbackPrediction (avgMoodScore : ℚ) (chatCount avgQuizScore : ℤ) :
    ℚ × String × ℚ :=
  let moodFactor := (5 - avgMoodScore) / 4
  let chatFactor := min ((chatCount : ℚ) / 15) 1
  let quizFactor := (60 - (avgQuizScore : ℚ)) / 48
  let stressProbability :=
    clamp01 (moodFactor * (4/10) + chatFactor * (2/10) + quizFactor * (4/10))
  (round2 stressProbability, stressLabel stressProbability, 65/100)

/-- `predict_stress`: LLM path first, deterministic fallback otherwise; the
result always echoes the inputs and carries tomorrow's date. -/
def predictStress (env : PredictEnv) (avgMoodScore : ℚ)
    (chatCount avgQuizScore : ℤ) : PredictionOutput :=
  match predictWithLlm env with
  | some (p, l, c) =>
    { date := env.tomorrow, stressProbability := p, label := l, confidence := c
      basedOnMood := avgMoodScore, basedOnChat := chatCount
      basedOnQuiz := avgQuizScore }
  | none =>
    let (p, l, c) := fallbackPrediction avgMoodScore chatCount avgQuizScore
    { date := env.tomorrow, stressProbability := p, label := l, confidence := c
      basedOnMood := avgMoodScore, basedOnChat := chatCount
      basedOnQuiz := avgQuizScore }

/-- The fallback formula exactly as the specification states it:
`0.4·(5-mood)/4 + 0.2·min(chat_count/15, 1) + 0.4·(60-quiz)/48`. -/
def specFallbackProbability (m : ℚ) (c q : ℤ) : ℚ :=
  (4/10) * ((5 - m) / 4) + (2/10) * (min ((c : ℚ) / 15) 1)
    + (4/10) * ((60 - (q : ℚ)) / 48)

/-- C3: whenever the LLM prediction path fails, `predict_stress` returns the
deterministic fallback: probability is the spec formula clamped to `[0,1]` and
rounded to two decimals, the label is derived from the clamped probability by
the fixed thresholds, and the confidence is exactly `0.65`; in particular the
two concrete examples from the specification hold. -/
theorem fallback_prediction_formula_and_examples (env : PredictEnv) (m : ℚ)
    (c q : ℤ) (h : env.llmRaw = none) :
    (predictStress env m c q).stressProbability
        = round2 (clamp01 (specFallbackProbability m c q)) ∧
    (predictStress env m c q).label
        = stressLabel (clamp01 (specFallbackProbability m c q)) ∧
    (predictStress env m c q).confidence = 65/100 ∧
    (predictStress env 1 15 12).stressProbability = 1 ∧
    (predictStress env 1 15 12).label = "High" ∧
    (predictStress env 5 0 60).stressProbability = 0 ∧
    (predictStress env 5 0 60).label = "Low" := by
  have harg : ∀ m : ℚ, ∀ c q : ℤ,
      (5 - m) / 4 * (4/10) + min ((c : ℚ) / 15) 1 * (2/10)
          + (60 - (q : ℚ)) / 48 * (4/10)
        = specFallbackProbability m c q := by
    intro m c q
    unfold specFallbackProbability
    ring
  refine ⟨?_, ?_, ?_, ?_, ?_, ?_, ?_⟩ <;>
    simp only [predictStress, predictWithLlm, h, fallbackPrediction, harg]
  · norm_num [specFallbackProbability, clamp01, round2]
  · norm_num [specFallbackProbability, clamp01, stressLabel]
  · norm_num [specFallbackProbability, clamp01, round2]
  · norm_num [specFallbackProbability, clamp01, stressLabel]

theorem fallback_prediction_formula_and_examples_spot :
    (predictStress ⟨none, "2026-01-01"⟩ 1 15 12).stressProbability = 1 ∧
    (predictStress ⟨none, "2026-01-01"⟩ 1 15 12).label = "High" ∧
    (predictStress ⟨none, "2026-01-01"⟩ 5 0 60).stressProbability = 0 ∧
    (predictStress ⟨none, "2026-01-01"⟩ 5 0 60).label = "Low" := by
  have h := fallback_prediction_formula_and_examples ⟨none, "2026-01-01"⟩
    (3/2) 4 30 rfl
  exact ⟨h.2.2.2.1, h.2.2.2.2.1, h.2.2.2.2.2.1, h.2.2.2.2.2.2⟩

/-- C6: on the LLM path, the returned probability and confidence are clamped
to `[0,1]`, the returned label is recomputed from the clamped probability via
the fixed thresholds, and the output is independent of the label the model
suggested. -/
theorem llm_prediction_clamped_relabeled (env : PredictEnv) (raw : LlmRaw)
    (m : ℚ) (c q : ℤ) (h : env.llmRaw = some raw) :
    0 ≤ (predictStress env m c q).stressProbability ∧
    (predictStress env m c q).stressProbability ≤ 1 ∧
    0 ≤ (predictStress env m c q).confidence ∧
    (predictStress env m c q).confidence ≤ 1 ∧
    (predictStress env m c q).label
        = stressLabel (predictStress env m c q).stressProbability ∧
    ∀ s : String,
      predictStress { env with llmRaw := some { raw with label := s } } m c q
        = predictStress env m c q := by
  have hclamp : ∀ x : ℚ, 0 ≤ clamp01 x ∧ clamp01 x ≤ 1 := by
    intro x
    constructor
    · exact le_max_left 0 (min 1 x)
    · exact max_le (by norm_num) (min_le_left 1 x)
  refine ⟨?_, ?_, ?_, ?_, ?_, ?_⟩
  · simp only [predictStress, predictWithLlm, h]
    exact (hclamp raw.stressProbability).1
  · simp only [predictStress, predictWithLlm, h]
    exact (hclamp raw.stressProbability).2
  · simp only [predictStress, predictWithLlm, h]
    exact (hclamp raw.confidence).1
  · simp only [predictStress, predictWithLlm, h]
    exact (hclamp raw.confidence).2
  · simp only [predictStress, predictWithLlm, h]
  · intro s
    simp only [predictStress, predictWithLlm, h]

theorem llm_prediction_clamped_relabeled_spot :
    0 ≤ (predictStress ⟨some ⟨37/10, "weird", -2⟩, "d"⟩ 2 3 30).stressProbability ∧
    (predictStress ⟨some ⟨37/10, "weird", -2⟩, "d"⟩ 2 3 30).label
      = stressLabel
          (predictStress ⟨some ⟨37/10, "weird", -2⟩, "d"⟩ 2 3 30).stressProbability := by
  have h := llm_prediction_clamped_relabeled ⟨some ⟨37/10, "weird", -2⟩, "d"⟩
    ⟨37/10, "weird", -2⟩ 2 3 30 rfl
  exact ⟨h.1, h.2.2.2.2.1⟩

/-! ## Mood service data model (`stressease/services/mood/mood_service.py` and
`stressease/api/mood.py`)

Daily mood logs live in the `user_mood_logs` collection keyed by the composite
document id `{user_id}_{date}`; weekly DASS aggregates live in
`user_weekly_dass`.  Both collections are embedded as lists of records; the
store-level queries (`where user_id ==`, `order_by submitted_at desc`,
`limit`) are embedded as filter / stable sort / take over those lists. -/

structure CoreScores where
  mood : ℤ
  energy : ℤ
  sleep : ℤ
  stress : ℤ
deriving DecidableEq

structure RotatingScores where
  domainName : String
  scores : List ℤ
deriving DecidableEq

structure DassScores where
  depression : ℤ
  anxiety : ℤ
  stress : ℤ
deriving DecidableEq

/-- The JSON body of `POST /quiz/daily` after parsing: `none` sections model
missing (or falsy/empty) fields.  `additional_notes` and `day_key` only feed
the swallowed AI-insight side call and are omitted. -/
structure QuizPayload where
  coreScores : Option CoreScores
  rotatingScores : Option RotatingScores
  dassToday : Option DassScores
  date : Option String
deriving DecidableEq

structure MoodLog where
  docId : String
  userId : String
  date : String
  coreScores : CoreScores
  rotatingScores : RotatingScores
  dassToday : DassScores
  highPoint : String × ℤ
  lowPoint : String × ℤ
  coreAvg : ℚ
  rotatingAvg : ℚ
  submittedAt : ℕ
deriving DecidableEq

structure WeeklyDass where
  userId : String
  weekStart : String
  weekEnd : String
  depressionTotal : ℤ
  anxietyTotal : ℤ
  stressTotal : ℤ
  calculatedAt : ℕ
deriving DecidableEq

structure MoodStore where
  logs : List MoodLog
  weekly : List WeeklyDass
deriving DecidableEq

/-- One score of the 12-question payload must be an integer in `[1, 5]`. -/
def scoreOk (s : ℤ) : Bool := decide (1 ≤ s) && decide (s ≤ 5)

def dassScoresOk (d : DassScores) : Bool :=
  scoreOk d.depression && scoreOk d.anxiety && scoreOk d.stress

/-- The validation ladder of `submit_daily_quiz` (sections present, rotating
scores a list of 5, every score an integer in `[1,5]`); the individual 400
responses it produces are collapsed into a single `badRequest` outcome. -/
def quizValid (p : QuizPayload) : Bool :=
  match p.coreScores, p.rotatingScores, p.dassToday with
  | some core, some rot, some dass =>
    scoreOk core.mood && scoreOk core.energy && scoreOk core.sleep
      && scoreOk core.stress
      && (rot.scores.length == 5) && rot.scores.all scoreOk
      && dassScoresOk dass
  | _, _, _ => false

def payloadCore (p : QuizPayload) : CoreScores :=
  p.coreScores.getD ⟨0, 0, 0, 0⟩

def payloadRot (p : QuizPayload) : RotatingScores :=
  p.rotatingScores.getD ⟨"", []⟩

def payloadDass (p : QuizPayload) : DassScores :=
  p.dassToday.getD ⟨0, 0, 0⟩

/-- `all_scores`: the 12 scores in the fixed order core → rotating → DASS. -/
def quizScoreList (p : QuizPayload) : List ℤ :=
  [(payloadCore p).mood, (payloadCore p).energy, (payloadCore p).sleep,
    (payloadCore p).stress]
    ++ (payloadRot p).scores
    ++ [(payloadDass p).depression, (payloadDass p).anxiety,
      (payloadDass p).stress]

/-- `all_questions`: the fixed question-id ordering `q1..q12`. -/
def allQuestions : List String :=
  ["q1", "q2", "q3", "q4", "q5", "q6", "q7", "q8", "q9", "q10", "q11", "q12"]

/-- Python `max(l)` on a nonempty list (`0` is never observed: the list of 12
validated scores is nonempty). -/
def pyListMax : List ℤ → ℤ
  | [] => 0
  | h :: t => t.foldl max h

/-- Python `min(l)` on a nonempty list. -/
def pyListMin : List ℤ → ℤ
  | [] => 0
  | h :: t => t.foldl min h

/-- `all_scores.index(max(all_scores))`: first index holding the maximum. -/
def quizHighIdx (p : QuizPayload) : ℕ :=
  (quizScoreList p).findIdx (fun s => s == pyListMax (quizScoreList p))

def quizLowIdx (p : QuizPayload) : ℕ :=
  (quizScoreList p).findIdx (fun s => s == pyListMin (quizScoreList p))

/-- `high_point = {question_id, score}` (the list indexing never goes out of
range on a validated payload, so the `getD` defaults are never observed). -/
def quizHighPoint (p : QuizPayload) : String × ℤ :=
  (allQuestions.getD (quizHighIdx p) "", (quizScoreList p).getD (quizHighIdx p) 0)

def quizLowPoint (p : QuizPayload) : String × ℤ :=
  (allQuestions.getD (quizLowIdx p) "", (quizScoreList p).getD (quizLowIdx p) 0)

/-- `date_str = daily_log.get("date") or date.today().isoformat()` — an absent
or empty (falsy) date falls back to today. -/
def resolveQuizDate (p : QuizPayload) (today : String) : String :=
  match p.date with
  | some d => if d == "" then today else d
  | none => today

/-- The Firestore document `submit_daily_quiz` builds and upserts (the
`additional_notes` passthrough is omitted with the field). -/
def buildDailyLog (user : String) (p : QuizPayload) (dateStr : String)
    (now : ℕ) : MoodLog :=
  { docId := user ++ "_" ++ dateStr
    userId := user
    date := dateStr
    coreScores := payloadCore p
    rotatingScores := payloadRot p
    dassToday := payloadDass p
    highPoint := quizHighPoint p
    lowPoint := quizLowPoint p
    coreAvg := (((quizScoreList p).take 4).sum : ℚ) / 4
    rotatingAvg := (((payloadRot p).scores).sum : ℚ)
      / (((payloadRot p).scores).length : ℚ)
    submittedAt := now }

/-- `upsert_daily_mood_log`: `doc_ref.set` on the composite id creates the
document if the id is new and overwrites it otherwise. -/
def upsertDailyMoodLog (logs : List MoodLog) (log : MoodLog) : List MoodLog :=
  if logs.any (fun l => l.docId == log.docId) then
    logs.map (fun l => if l.docId == log.docId then log else l)
  else
    logs ++ [log]

/-- Stable insertion step for ordering logs by `submitted_at` descending
(the store's `order_by(submitted_at, DESCENDING)`). -/
def insertLogDesc (x : MoodLog) : List MoodLog → List MoodLog
  | [] => [x]
  | y :: ys =>
    if y.submittedAt < x.submittedAt then x :: y :: ys
    else y :: insertLogDesc x ys

def sortLogsDesc : List MoodLog → List MoodLog
  | [] => []
  | x :: xs => insertLogDesc x (sortLogsDesc xs)

/-- `get_last_daily_mood_logs`: user filter, newest first, `limit`. -/
def getLastDailyMoodLogs (logs : List MoodLog) (user : String) (limit : ℕ) :
    List MoodLog :=
  (sortLogsDesc (logs.filter (fun l => l.userId == user))).take limit

/-- `get_daily_mood_logs_count`: size of the user's `user_mood_logs` slice. -/
def getDailyMoodLogsCount (logs : List MoodLog) (user : String) : ℕ :=
  (logs.filter (fun l => l.userId == user)).length

/-- `weekly_dass_exists`: equality-filtered existence query. -/
def weeklyDassExists (weekly : List WeeklyDass) (user weekStart weekEnd : String) :
    Bool :=
  weekly.any (fun w =>
    w.userId == user && w.weekStart == weekStart && w.weekEnd == weekEnd)

/-- `_to_dass_scale`: the fixed remap table `{1:0, 2:1, 3:1, 4:2, 5:3}`;
`none` models the `KeyError` raised on any other value. -/
def toDassScale (s : ℤ) : Option ℤ :=
  if s = 1 then some 0
  else if s = 2 then some 1
  else if s = 3 then some 1
  else if s = 4 then some 2
  else if s = 5 then some 3
  else none

/-- Elementwise remap of one DASS series, `none` propagating the `KeyError`. -/
def mapDassScale : List ℤ → Option (List ℤ)
  | [] => some []
  | v :: vs =>
    match toDassScale v, mapDassScale vs with
    | some a, some rest => some (a :: rest)
    | _, _ => none

/-- `sum(_to_dass_scale(s) for s in vals) * 2`, with `none` propagating the
`KeyError`. -/
def dassTotal (vals : List ℤ) : Option ℤ :=
  (mapDassScale vals).map (fun l => l.sum * 2)

/-- One step of Python `min` over strings (leftmost minimum is kept). -/
def pyStrMinFold (acc x : String) : String := if x < acc then x else acc

/-- One step of Python `max` over strings (leftmost maximum is kept). -/
def pyStrMaxFold (acc x : String) : String := if acc < x then x else acc

/-- Week range of the triggering 7 logs: min/max over the (truthy) `date`
fields, falling back to today when all are missing. -/
def weekRange (last7 : List MoodLog) (today : String) : String × String :=
  match (last7.map (fun l => l.date)).filter (fun d => d != "") with
  | [] => (today, today)
  | d :: ds => (ds.foldl pyStrMinFold d, ds.foldl pyStrMaxFold d)

structure WeeklyInfo where
  weekStart : String
  weekEnd : String
  depressionTotal : ℤ
  anxietyTotal : ℤ
  stressTotal : ℤ
deriving DecidableEq

/-- The post-save weekly aggregation block of `submit_daily_quiz`:
count check, remap/sum/double of the three DASS series over the most recent
7 logs, duplicate-range check, insert.  `.error` models the `KeyError`
escaping to the endpoint's outer handler (after the daily log was already
saved). -/
def weeklyAggregationStep (logs1 : List MoodLog) (weekly : List WeeklyDass)
    (user today : String) (now : ℕ) :
    List WeeklyDass × Except Unit (Option WeeklyInfo) :=
  let n := getDailyMoodLogsCount logs1 user
  let last7 := getLastDailyMoodLogs logs1 user 7
  if 7 ≤ n ∧ n % 7 = 0 ∧ last7.length = 7 then
    match dassTotal (last7.map (fun l => l.dassToday.depression)),
        dassTotal (last7.map (fun l => l.dassToday.anxiety)),
        dassTotal (last7.map (fun l => l.dassToday.stress)) with
    | some depT, some anxT, some strT =>
      let wr := weekRange last7 today
      if weeklyDassExists weekly user wr.1 wr.2 then (weekly, .ok none)
      else
        (weekly ++ [⟨user, wr.1, wr.2, depT, anxT, strT, now⟩],
          .ok (some ⟨wr.1, wr.2, depT, anxT, strT⟩))
    | _, _, _ => (weekly, .error ())
  else (weekly, .ok none)

inductive QuizResp where
  | badRequest
  | serverError
  | created (logId : String) (highPoint lowPoint : String × ℤ)
      (weekly : Option WeeklyInfo)
deriving DecidableEq

/-- The valid-payload body of `submit_daily_quiz`: build & upsert the daily
document, then run the weekly aggregation block (the AI-insight side call is
wrapped in its own try/except and cannot affect the store or the response). -/
def submitValidQuiz (st : MoodStore) (user : String) (p : QuizPayload)
    (today : String) (now : ℕ) : MoodStore × QuizResp :=
  let log := buildDailyLog user p (resolveQuizDate p today) now
  let logs1 := upsertDailyMoodLog st.logs log
  match weeklyAggregationStep logs1 st.weekly user today now with
  | (weekly1, .error _) => ({ logs := logs1, weekly := weekly1 }, .serverError)
  | (weekly1, .ok winfo) =>
    ({ logs := logs1, weekly := weekly1 },
      .created log.docId (quizHighPoint p) (quizLowPoint p) winfo)

/-- `POST /quiz/daily`. -/
def submitDailyQuiz (st : MoodStore) (user : String) (p : QuizPayload)
    (today : String) (now : ℕ) : MoodStore × QuizResp :=
  if quizValid p then submitValidQuiz st user p today now
  else (st, .badRequest)

/-! ## Helper lemmas about `max`/`min` folds and first-index selection -/

theorem init_le_foldl_max (t : List ℤ) (h : ℤ) : h ≤ t.foldl max h := by
  induction t generalizing h with
  | nil => simp
  | cons a t ih => exact le_trans (le_max_left h a) (ih (max h a))

theorem mem_le_foldl_max (t : List ℤ) (h : ℤ) : ∀ x ∈ t, x ≤ t.foldl max h := by
  induction t generalizing h with
  | nil => simp
  | cons a t ih =>
    intro x hx
    rcases List.mem_cons.mp hx with rfl | hx
    · exact le_trans (le_max_right h x) (init_le_foldl_max t (max h x))
    · exact ih (max h a) x hx

theorem foldl_max_mem (t : List ℤ) (h : ℤ) :
    t.foldl max h = h ∨ t.foldl max h ∈ t := by
  induction t generalizing h with
  | nil => exact Or.inl rfl
  | cons a t ih =>
    rcases ih (max h a) with heq | hmem
    · rcases max_choice h a with hm | hm
      · exact Or.inl (by rw [List.foldl_cons, heq, hm])
      · exact Or.inr (by rw [List.foldl_cons, heq, hm]; exact List.mem_cons_self a t)
    · exact Or.inr (List.mem_cons_of_mem a hmem)

theorem foldl_min_le_init (t : List ℤ) (h : ℤ) : t.foldl min h ≤ h := by
  induction t generalizing h with
  | nil => simp
  | cons a t ih => exact le_trans (ih (min h a)) (min_le_left h a)

theorem foldl_min_le_mem (t : List ℤ) (h : ℤ) : ∀ x ∈ t, t.foldl min h ≤ x := by
  induction t generalizing h with
  | nil => simp
  | cons a t ih =>
    intro x hx
    rcases List.mem_cons.mp hx with rfl | hx
    · exact le_trans (foldl_min_le_init t (min h x)) (min_le_right h x)
    · exact ih (min h a) x hx

theorem foldl_min_mem (t : List ℤ) (h : ℤ) :
    t.foldl min h = h ∨ t.foldl min h ∈ t := by
  induction t generalizing h with
  | nil => exact Or.inl rfl
  | cons a t ih =>
    rcases ih (min h a) with heq | hmem
    · rcases min_choice h a with hm | hm
      · exact Or.inl (by rw [List.foldl_cons, heq, hm])
      · exact Or.inr (by rw [List.foldl_cons, heq, hm]; exact List.mem_cons_self a t)
    · exact Or.inr (List.mem_cons_of_mem a hmem)

theorem pyListMax_mem {l : List ℤ} (h : l ≠ []) : pyListMax l ∈ l := by
  cases l with
  | nil => exact absurd rfl h
  | cons a t =>
    rcases foldl_max_mem t a with heq | hmem
    · show t.foldl max a ∈ a :: t
      rw [heq]
      exact List.mem_cons_self a t
    · exact List.mem_cons_of_mem a hmem

theorem le_pyListMax {l : List ℤ} : ∀ x ∈ l, x ≤ pyListMax l := by
  cases l with
  | nil => simp
  | cons a t =>
    intro x hx
    rcases List.mem_cons.mp hx with rfl | hx
    · exact init_le_foldl_max t x
    · exact mem_le_foldl_max t a x hx

theorem pyListMin_mem {l : List ℤ} (h : l ≠ []) : pyListMin l ∈ l := by
  cases l with
  | nil => exact absurd rfl h
  | cons a t =>
    rcases foldl_min_mem t a with heq | hmem
    · show t.foldl min a ∈ a :: t
      rw [heq]
      exact List.mem_cons_self a t
    · exact List.mem_cons_of_mem a hmem

theorem pyListMin_le {l : List ℤ} : ∀ x ∈ l, pyListMin l ≤ x := by
  cases l with
  | nil => simp
  | cons a t =>
    intro x hx
    rcases List.mem_cons.mp hx with rfl | hx
    · exact foldl_min_le_init t x
    · exact foldl_min_le_mem t a x hx

/-- Python `l.index(v)` semantics for a value known to occur: the index is in
range, holds `v`, and every earlier position differs from `v`. -/
theorem firstIdxOf_spec {l : List ℤ} {v : ℤ} (hv : v ∈ l) :
    l.findIdx (fun s => s == v) < l.length ∧
    l.getD (l.findIdx (fun s => s == v)) 0 = v ∧
    ∀ j < l.findIdx (fun s => s == v), l.getD j 0 ≠ v := by
  have hi : l.findIdx (fun s => s == v) < l.length :=
    List.findIdx_lt_length_of_exists ⟨v, hv, by simp⟩
  have hval : l.getD (l.findIdx (fun s => s == v)) 0 = v := by
    have hb := List.findIdx_getElem (p := fun s => s == v) (w := hi)
    simp only [beq_iff_eq] at hb
    simpa [List.getD_eq_getElem?_getD, List.getElem?_eq_getElem hi] using hb
  refine ⟨hi, hval, ?_⟩
  intro j hj
  have hj' : j < l.length := lt_of_lt_of_le hj (List.findIdx_le_length _)
  have hb := List.not_of_lt_findIdx (p := fun s => s == v) hj
  simp only [beq_eq_false_iff_ne, ne_eq] at hb
  simpa [List.getD_eq_getElem?_getD, List.getElem?_eq_getElem hj'] using hb

theorem quizScoreList_length {p : QuizPayload} (h : quizValid p = true) :
    (quizScoreList p).length = 12 := by
  rcases hc : p.coreScores with _ | core <;>
    rcases hr : p.rotatingScores with _ | rot <;>
    rcases hd : p.dassToday with _ | dass <;>
    simp only [quizValid, hc, hr, hd] at h <;>
    try exact Bool.noConfusion h
  simp only [Bool.and_eq_true, beq_iff_eq] at h
  obtain ⟨⟨⟨⟨⟨⟨hm, he⟩, hs⟩, hst⟩, hlen5⟩, hall⟩, hdass⟩ := h
  simp [quizScoreList, payloadCore, payloadRot, payloadDass, hc, hr, hd, hlen5]

/-- The concrete example from the specification: scores
`[3,5,1,4,2,3,3,3,3,2,2,2]` laid out over `q1..q12`. -/
def c5ExamplePayload : QuizPayload :=
  { coreScores := some ⟨3, 5, 1, 4⟩
    rotatingScores := some ⟨"social", [2, 3, 3, 3, 3]⟩
    dassToday := some ⟨2, 2, 2⟩
    date := none }

/-- C5: on every valid quiz payload, `high_point` is located at an index of
the fixed core→rotating→clinical score layout that holds the maximum score,
with every earlier index strictly smaller (first-occurrence tie-break), and
the reported question id is the one at that index of `q1..q12`; dually for
`low_point`; in particular the specification's concrete example yields
`high_point = (q2, 5)` and `low_point = (q3, 1)`. -/
theorem high_low_point_first_extremum (p : QuizPayload)
    (h : quizValid p = true) :
    (∃ i : ℕ, i < 12 ∧
      quizHighPoint p = (allQuestions.getD i "", (quizScoreList p).getD i 0) ∧
      (∀ j < 12, (quizScoreList p).getD j 0 ≤ (quizScoreList p).getD i 0) ∧
      (∀ j < i, (quizScoreList p).getD j 0 < (quizScoreList p).getD i 0)) ∧
    (∃ i : ℕ, i < 12 ∧
      quizLowPoint p = (allQuestions.getD i "", (quizScoreList p).getD i 0) ∧
      (∀ j < 12, (quizScoreList p).getD i 0 ≤ (quizScoreList p).getD j 0) ∧
      (∀ j < i, (quizScoreList p).getD i 0 < (quizScoreList p).getD j 0)) ∧
    quizHighPoint c5ExamplePayload = ("q2", 5) ∧
    quizLowPoint c5ExamplePayload = ("q3", 1) := by
  have hlen := quizScoreList_length h
  have hne : quizScoreList p ≠ [] := by
    intro hnil
    rw [hnil] at hlen
    simp at hlen
  refine ⟨?_, ?_, by decide, by decide⟩
  · obtain ⟨hi, hval, hlt⟩ := firstIdxOf_spec (pyListMax_mem hne)
    refine ⟨quizHighIdx p, by rw [hlen] at hi; exact hi, rfl, ?_, ?_⟩
    · intro j hj
      have hj' : j < (quizScoreList p).length := by omega
      have hmem : (quizScoreList p).getD j 0 ∈ quizScoreList p := by
        simp only [List.getD_eq_getElem?_getD, List.getElem?_eq_getElem hj',
          Option.getD_some]
        exact List.getElem_mem hj'
      have := le_pyListMax _ hmem
      show (quizScoreList p).getD j 0 ≤ (quizScoreList p).getD (quizHighIdx p) 0
      rw [show (quizScoreList p).getD (quizHighIdx p) 0
          = pyListMax (quizScoreList p) from hval]
      exact this
    · intro j hj
      have hj' : j < (quizScoreList p).length := by
        have := @List.findIdx_le_length _
          (fun s => s == pyListMax (quizScoreList p)) (quizScoreList p)
        have : quizHighIdx p ≤ (quizScoreList p).length := this
        omega
      have hmem : (quizScoreList p).getD j 0 ∈ quizScoreList p := by
        simp only [List.getD_eq_getElem?_getD, List.getElem?_eq_getElem hj',
          Option.getD_some]
        exact List.getElem_mem hj'
      have hle := le_pyListMax _ hmem
      have hne' := hlt j hj
      show (quizScoreList p).getD j 0 < (quizScoreList p).getD (quizHighIdx p) 0
      rw [show (quizScoreList p).getD (quizHighIdx p) 0
          = pyListMax (quizScoreList p) from hval]
      exact lt_of_le_of_ne hle hne'
  · obtain ⟨hi, hval, hlt⟩ := firstIdxOf_spec (pyListMin_mem hne)
    refine ⟨quizLowIdx p, by rw [hlen] at hi; exact hi, rfl, ?_, ?_⟩
    · intro j hj
      have hj' : j < (quizScoreList p).length := by omega
      have hmem : (quizScoreList p).getD j 0 ∈ quizScoreList p := by
        simp only [List.getD_eq_getElem?_getD, List.getElem?_eq_getElem hj',
          Option.getD_some]
        exact List.getElem_mem hj'
      have := pyListMin_le _ hmem
      show (quizScoreList p).getD (quizLowIdx p) 0 ≤ (quizScoreList p).getD j 0
      rw [show (quizScoreList p).getD (quizLowIdx p) 0
          = pyListMin (quizScoreList p) from hval]
      exact this
    · intro j hj
      have hj' : j < (quizScoreList p).length := by
        have hx := @List.findIdx_le_length _
          (fun s => s == pyListMin (quizScoreList p)) (quizScoreList p)
        have : quizLowIdx p ≤ (quizScoreList p).length := hx
        omega
      have hmem : (quizScoreList p).getD j 0 ∈ quizScoreList p := by
        simp only [List.getD_eq_getElem?_getD, List.getElem?_eq_getElem hj',
          Option.getD_some]
        exact List.getElem_mem hj'
      have hle := pyListMin_le _ hmem
      have hne' := hlt j hj
      show (quizScoreList p).getD (quizLowIdx p) 0 < (quizScoreList p).getD j 0
      rw [show (quizScoreList p).getD (quizLowIdx p) 0
          = pyListMin (quizScoreList p) from hval]
      exact lt_of_le_of_ne hle (Ne.symm hne')

theorem high_low_point_first_extremum_spot :
    quizHighPoint c5ExamplePayload = ("q2", 5) ∧
    quizLowPoint c5ExamplePayload = ("q3", 1) := by
  have h := high_low_point_first_extremum c5ExamplePayload (by decide)
  exact ⟨h.2.2.1, h.2.2.2⟩

/-! ## Lemmas about log sorting, upsert, and the DASS remap -/

theorem length_insertLogDesc (x : MoodLog) (l : List MoodLog) :
    (insertLogDesc x l).length = l.length + 1 := by
  induction l with
  | nil => rfl
  | cons y ys ih =>
    simp only [insertLogDesc]
    split <;> simp [ih]

theorem length_sortLogsDesc (l : List MoodLog) :
    (sortLogsDesc l).length = l.length := by
  induction l with
  | nil => rfl
  | cons x xs ih => simp [sortLogsDesc, length_insertLogDesc, ih]

theorem mem_insertLogDesc {y x : MoodLog} {l : List MoodLog} :
    y ∈ insertLogDesc x l ↔ y = x ∨ y ∈ l := by
  induction l with
  | nil => simp [insertLogDesc]
  | cons z zs ih =>
    simp only [insertLogDesc]
    split
    · simp
    · simp only [List.mem_cons, ih]
      tauto

theorem mem_sortLogsDesc {y : MoodLog} {l : List MoodLog} :
    y ∈ sortLogsDesc l ↔ y ∈ l := by
  induction l with
  | nil => simp [sortLogsDesc]
  | cons x xs ih => simp [sortLogsDesc, mem_insertLogDesc, ih]

theorem mem_upsertDailyMoodLog {y : MoodLog} {logs : List MoodLog}
    {log : MoodLog} (h : y ∈ upsertDailyMoodLog logs log) :
    y ∈ logs ∨ y = log := by
  unfold upsertDailyMoodLog at h
  split at h
  · obtain ⟨x, hx, hxy⟩ := List.mem_map.mp h
    by_cases hxd : (x.docId == log.docId) = true
    · right
      rw [← hxy, if_pos hxd]
    · left
      rw [← hxy, if_neg hxd]
      exact hx
  · rcases List.mem_append.mp h with h1 | h1
    · exact Or.inl h1
    · simp only [List.mem_singleton] at h1
      exact Or.inr h1

/-- The remap table `1→0, 2→1, 3→1, 4→2, 5→3` as the specification states it
(total on the validated range `[1,5]`; out-of-range values never reach it). -/
def specDassRemap (s : ℤ) : ℤ :=
  if s = 1 then 0 else if s = 2 then 1 else if s = 3 then 1
  else if s = 4 then 2 else 3

theorem toDassScale_of_ok {s : ℤ} (h : scoreOk s = true) :
    toDassScale s = some (specDassRemap s) := by
  simp only [scoreOk, Bool.and_eq_true, decide_eq_true_eq] at h
  have hs : s = 1 ∨ s = 2 ∨ s = 3 ∨ s = 4 ∨ s = 5 := by omega
  rcases hs with rfl | rfl | rfl | rfl | rfl <;> rfl

theorem mapDassScale_of_ok {vals : List ℤ} (h : ∀ v ∈ vals, scoreOk v = true) :
    mapDassScale vals = some (vals.map specDassRemap) := by
  induction vals with
  | nil => rfl
  | cons v vs ih =>
    have hv := toDassScale_of_ok (h v (List.mem_cons_self v vs))
    have hvs := ih (fun x hx => h x (List.mem_cons_of_mem v hx))
    simp [mapDassScale, hv, hvs]

theorem dassTotal_of_ok {vals : List ℤ} (h : ∀ v ∈ vals, scoreOk v = true) :
    dassTotal vals = some (2 * (vals.map specDassRemap).sum) := by
  simp [dassTotal, mapDassScale_of_ok h, Int.mul_comm]

theorem length_getLastDailyMoodLogs (logs : List MoodLog) (user : String)
    (k : ℕ) :
    (getLastDailyMoodLogs logs user k).length
      = min k (getDailyMoodLogsCount logs user) := by
  simp [getLastDailyMoodLogs, getDailyMoodLogsCount, length_sortLogsDesc]

/-- Python `min(l)` over the nonempty list of date strings. -/
def pyStrListMin : List String → String
  | [] => ""
  | h :: t => t.foldl pyStrMinFold h

/-- Python `max(l)` over the nonempty list of date strings. -/
def pyStrListMax : List String → String
  | [] => ""
  | h :: t => t.foldl pyStrMaxFold h

theorem weekRange_eq_minmax {last7 : List MoodLog} {today : String}
    (hne : last7 ≠ []) (hd : ∀ l ∈ last7, l.date ≠ "") :
    weekRange last7 today
      = (pyStrListMin (last7.map (fun l => l.date)),
         pyStrListMax (last7.map (fun l => l.date))) := by
  have hfilter : (last7.map (fun l => l.date)).filter (fun d => d != "")
      = last7.map (fun l => l.date) := by
    apply List.filter_eq_self.mpr
    intro a ha
    obtain ⟨l, hl, rfl⟩ := List.mem_map.mp ha
    simpa using hd l hl
  obtain ⟨d, ds, hmap⟩ : ∃ d ds, last7.map (fun l => l.date) = d :: ds := by
    cases hm : last7.map (fun l => l.date) with
    | nil =>
      rw [List.map_eq_nil_iff] at hm
      exact absurd hm hne
    | cons d ds => exact ⟨d, ds, rfl⟩
  unfold weekRange
  rw [hfilter, hmap]
  rfl

theorem resolveQuizDate_ne_empty (p : QuizPayload) {today : String}
    (h : today ≠ "") : resolveQuizDate p today ≠ "" := by
  rcases hd : p.date with _ | d
  · simpa [resolveQuizDate, hd] using h
  · by_cases hde : d = ""
    · simpa [resolveQuizDate, hd, hde] using h
    · simp [resolveQuizDate, hd, hde]

theorem quizValid_dassOk {p : QuizPayload} (h : quizValid p = true) :
    dassScoresOk (payloadDass p) = true := by
  rcases hc : p.coreScores with _ | core <;>
    rcases hr : p.rotatingScores with _ | rot <;>
    rcases hd : p.dassToday with _ | dass <;>
    simp only [quizValid, hc, hr, hd] at h <;>
    try exact Bool.noConfusion h
  simp only [Bool.and_eq_true] at h
  simp only [payloadDass, hd, Option.getD_some]
  exact h.2

theorem submitValidQuiz_logs (st : MoodStore) (user : String) (p : QuizPayload)
    (today : String) (now : ℕ) :
    (submitValidQuiz st user p today now).1.logs
      = upsertDailyMoodLog st.logs
          (buildDailyLog user p (resolveQuizDate p today) now) := by
  simp only [submitValidQuiz]
  rcases hstep : weeklyAggregationStep
    (upsertDailyMoodLog st.logs
      (buildDailyLog user p (resolveQuizDate p today) now))
    st.weekly user today now with ⟨w, e⟩
  cases e <;> rfl

theorem submitValidQuiz_weekly (st : MoodStore) (user : String)
    (p : QuizPayload) (today : String) (now : ℕ) :
    (submitValidQuiz st user p today now).1.weekly
      = (weeklyAggregationStep
          (upsertDailyMoodLog st.logs
            (buildDailyLog user p (resolveQuizDate p today) now))
          st.weekly user today now).1 := by
  simp only [submitValidQuiz]
  rcases hstep : weeklyAggregationStep
    (upsertDailyMoodLog st.logs
      (buildDailyLog user p (resolveQuizDate p today) now))
    st.weekly user today now with ⟨w, e⟩
  cases e <;> rfl

/-- The weekly-aggregate record as the specification describes it: spanning
the min/max dates of the triggering 7 logs, each total being twice the sum of
the per-day clinical scores mapped through the remap table. -/
def specWeeklyRecord (last7 : List MoodLog) (user today : String) (now : ℕ) :
    WeeklyDass :=
  { userId := user
    weekStart := (weekRange last7 today).1
    weekEnd := (weekRange last7 today).2
    depressionTotal :=
      2 * (last7.map (fun l => specDassRemap l.dassToday.depression)).sum
    anxietyTotal :=
      2 * (last7.map (fun l => specDassRemap l.dassToday.anxiety)).sum
    stressTotal :=
      2 * (last7.map (fun l => specDassRemap l.dassToday.stress)).sum
    calculatedAt := now }

/-- Characterization of the weekly aggregation block: an aggregate is appended
exactly when the user's log count is a positive multiple of 7 and no aggregate
exists for the week range of the most recent 7 logs; the appended record is
the spec-side record. -/
theorem weeklyAggregationStep_key (logs1 : List MoodLog)
    (weekly : List WeeklyDass) (user today : String) (now : ℕ)
    (hwf : ∀ l ∈ getLastDailyMoodLogs logs1 user 7,
      dassScoresOk l.dassToday = true) :
    (weeklyAggregationStep logs1 weekly user today now).1
      = if 0 < getDailyMoodLogsCount logs1 user ∧
            getDailyMoodLogsCount logs1 user % 7 = 0 ∧
            weeklyDassExists weekly user
              (weekRange (getLastDailyMoodLogs logs1 user 7) today).1
              (weekRange (getLastDailyMoodLogs logs1 user 7) today).2 = false
        then weekly
          ++ [specWeeklyRecord (getLastDailyMoodLogs logs1 user 7) user today now]
        else weekly := by
  have hdep : dassTotal ((getLastDailyMoodLogs logs1 user 7).map
        (fun l => l.dassToday.depression))
      = some (2 * ((getLastDailyMoodLogs logs1 user 7).map
          (fun l => specDassRemap l.dassToday.depression)).sum) := by
    have hok : ∀ v ∈ (getLastDailyMoodLogs logs1 user 7).map
        (fun l => l.dassToday.depression), scoreOk v = true := by
      intro v hv
      obtain ⟨l, hl, rfl⟩ := List.mem_map.mp hv
      have hh := hwf l hl
      simp only [dassScoresOk, Bool.and_eq_true] at hh
      exact hh.1.1
    rw [dassTotal_of_ok hok, List.map_map]
    rfl
  have hanx : dassTotal ((getLastDailyMoodLogs logs1 user 7).map
        (fun l => l.dassToday.anxiety))
      = some (2 * ((getLastDailyMoodLogs logs1 user 7).map
          (fun l => specDassRemap l.dassToday.anxiety)).sum) := by
    have hok : ∀ v ∈ (getLastDailyMoodLogs logs1 user 7).map
        (fun l => l.dassToday.anxiety), scoreOk v = true := by
      intro v hv
      obtain ⟨l, hl, rfl⟩ := List.mem_map.mp hv
      have hh := hwf l hl
      simp only [dassScoresOk, Bool.and_eq_true] at hh
      exact hh.1.2
    rw [dassTotal_of_ok hok, List.map_map]
    rfl
  have hstr : dassTotal ((getLastDailyMoodLogs logs1 user 7).map
        (fun l => l.dassToday.stress))
      = some (2 * ((getLastDailyMoodLogs logs1 user 7).map
          (fun l => specDassRemap l.dassToday.stress)).sum) := by
    have hok : ∀ v ∈ (getLastDailyMoodLogs logs1 user 7).map
        (fun l => l.dassToday.stress), scoreOk v = true := by
      intro v hv
      obtain ⟨l, hl, rfl⟩ := List.mem_map.mp hv
      have hh := hwf l hl
      simp only [dassScoresOk, Bool.and_eq_true] at hh
      exact hh.2
    rw [dassTotal_of_ok hok, List.map_map]
    rfl
  simp only [weeklyAggregationStep]
  by_cases hc : 0 < getDailyMoodLogsCount logs1 user ∧
      getDailyMoodLogsCount logs1 user % 7 = 0
  · have h7 : 7 ≤ getDailyMoodLogsCount logs1 user ∧
        getDailyMoodLogsCount logs1 user % 7 = 0 ∧
        (getLastDailyMoodLogs logs1 user 7).length = 7 := by
      refine ⟨by omega, hc.2, ?_⟩
      rw [length_getLastDailyMoodLogs]
      omega
    rw [if_pos h7, hdep, hanx, hstr]
    cases hex : weeklyDassExists weekly user
        (weekRange (getLastDailyMoodLogs logs1 user 7) today).1
        (weekRange (getLastDailyMoodLogs logs1 user 7) today).2 with
    | false =>
      rw [if_pos ⟨hc.1, hc.2, rfl⟩]
      simp [specWeeklyRecord]
    | true =>
      rw [if_neg (by simp [hex])]
      simp [hex]
  · have hnot : ¬(7 ≤ getDailyMoodLogsCount logs1 user ∧
        getDailyMoodLogsCount logs1 user % 7 = 0 ∧
        (getLastDailyMoodLogs logs1 user 7).length = 7) := by
      intro hcon
      exact hc ⟨by omega, hcon.2.1⟩
    rw [if_neg hnot, if_neg (fun hcon => hc ⟨hcon.1, hcon.2.1⟩)]

/-! ## Post-submission observations used to state the aggregation claim -/

def postQuizLogs (st : MoodStore) (user : String) (p : QuizPayload)
    (today : String) (now : ℕ) : List MoodLog :=
  (submitDailyQuiz st user p today now).1.logs

def postQuizCount (st : MoodStore) (user : String) (p : QuizPayload)
    (today : String) (now : ℕ) : ℕ :=
  getDailyMoodLogsCount (postQuizLogs st user p today now) user

def postQuizLast7 (st : MoodStore) (user : String) (p : QuizPayload)
    (today : String) (now : ℕ) : List MoodLog :=
  getLastDailyMoodLogs (postQuizLogs st user p today now) user 7

def postQuizWeekRange (st : MoodStore) (user : String) (p : QuizPayload)
    (today : String) (now : ℕ) : String × String :=
  weekRange (postQuizLast7 st user p today now) today

/-- C4: on a valid submission, a weekly DASS aggregate is written if and only
if the post-save log count is a positive multiple of 7 and no aggregate
already exists for the week range of the most recent 7 logs; when written, it
is exactly the spec-side record (doubled remapped sums over those 7 logs),
and the week range is the min/max of the dates found in those 7 logs. -/
theorem weekly_aggregation_trigger_and_totals (st : MoodStore) (user : String)
    (p : QuizPayload) (today : String) (now : ℕ)
    (hval : quizValid p = true)
    (hwf : ∀ l ∈ st.logs, dassScoresOk l.dassToday = true ∧ l.date ≠ "")
    (htoday : today ≠ "") :
    ((submitDailyQuiz st user p today now).1.weekly ≠ st.weekly ↔
      (0 < postQuizCount st user p today now ∧
        postQuizCount st user p today now % 7 = 0 ∧
        weeklyDassExists st.weekly user
          (postQuizWeekRange st user p today now).1
          (postQuizWeekRange st user p today now).2 = false)) ∧
    ((0 < postQuizCount st user p today now ∧
        postQuizCount st user p today now % 7 = 0 ∧
        weeklyDassExists st.weekly user
          (postQuizWeekRange st user p today now).1
          (postQuizWeekRange st user p today now).2 = false) →
      (submitDailyQuiz st user p today now).1.weekly
        = st.weekly
          ++ [specWeeklyRecord (postQuizLast7 st user p today now) user today
              now]) ∧
    (postQuizLast7 st user p today now ≠ [] →
      postQuizWeekRange st user p today now
        = (pyStrListMin
            ((postQuizLast7 st user p today now).map (fun l => l.date)),
           pyStrListMax
            ((postQuizLast7 st user p today now).map (fun l => l.date)))) := by
  have hsub : submitDailyQuiz st user p today now
      = submitValidQuiz st user p today now := by
    simp [submitDailyQuiz, hval]
  have hlogs : postQuizLogs st user p today now
      = upsertDailyMoodLog st.logs
          (buildDailyLog user p (resolveQuizDate p today) now) := by
    rw [postQuizLogs, hsub]
    exact submitValidQuiz_logs st user p today now
  have hmem7 : ∀ l ∈ postQuizLast7 st user p today now,
      l ∈ st.logs ∨ l = buildDailyLog user p (resolveQuizDate p today) now := by
    intro l hl
    rw [postQuizLast7, getLastDailyMoodLogs] at hl
    have hl1 := List.take_subset 7 _ hl
    have hl2 := mem_sortLogsDesc.mp hl1
    have hl3 := (List.mem_filter.mp hl2).1
    rw [hlogs] at hl3
    exact mem_upsertDailyMoodLog hl3
  have hwf7 : ∀ l ∈ postQuizLast7 st user p today now,
      dassScoresOk l.dassToday = true := by
    intro l hl
    rcases hmem7 l hl with hmem | rfl
    · exact (hwf l hmem).1
    · exact quizValid_dassOk hval
  have hdate7 : ∀ l ∈ postQuizLast7 st user p today now, l.date ≠ "" := by
    intro l hl
    rcases hmem7 l hl with hmem | rfl
    · exact (hwf l hmem).2
    · exact resolveQuizDate_ne_empty p htoday
  have hweekly : (submitDailyQuiz st user p today now).1.weekly
      = (weeklyAggregationStep
          (upsertDailyMoodLog st.logs
            (buildDailyLog user p (resolveQuizDate p today) now))
          st.weekly user today now).1 := by
    rw [hsub]
    exact submitValidQuiz_weekly st user p today now
  have hsame : getLastDailyMoodLogs
      (upsertDailyMoodLog st.logs
        (buildDailyLog user p (resolveQuizDate p today) now)) user 7
      = postQuizLast7 st user p today now := by
    rw [postQuizLast7, hlogs]
  have hcount : getDailyMoodLogsCount
      (upsertDailyMoodLog st.logs
        (buildDailyLog user p (resolveQuizDate p today) now)) user
      = postQuizCount st user p today now := by
    rw [postQuizCount, postQuizLogs, hsub, submitValidQuiz_logs]
  have hkey := weeklyAggregationStep_key
    (upsertDailyMoodLog st.logs
      (buildDailyLog user p (resolveQuizDate p today) now))
    st.weekly user today now (by rw [hsame]; exact hwf7)
  rw [hsame, hcount] at hkey
  have hwr : weekRange (postQuizLast7 st user p today now) today
      = postQuizWeekRange st user p today now := rfl
  rw [hwr] at hkey
  rw [hweekly, hkey]
  refine ⟨?_, ?_, ?_⟩
  · by_cases hcond : 0 < postQuizCount st user p today now ∧
        postQuizCount st user p today now % 7 = 0 ∧
        weeklyDassExists st.weekly user
          (postQuizWeekRange st user p today now).1
          (postQuizWeekRange st user p today now).2 = false
    · rw [if_pos hcond]
      have happ : st.weekly
          ++ [specWeeklyRecord (postQuizLast7 st user p today now) user today
              now] ≠ st.weekly := by
        intro heq
        have := congrArg List.length heq
        simp at this
      exact ⟨fun _ => hcond, fun _ => happ⟩
    · rw [if_neg hcond]
      exact iff_of_false (fun hq => hq rfl) hcond
  · intro hcond
    rw [if_pos hcond]
  · intro hne
    rw [postQuizWeekRange]
    exact weekRange_eq_minmax hne hdate7

/-- Concrete daily log used by the aggregation witness. -/
def c4Log (i : ℕ) (d : String) : MoodLog :=
  { docId := "u_" ++ d
    userId := "u"
    date := d
    coreScores := ⟨3, 3, 3, 3⟩
    rotatingScores := ⟨"social", [3, 3, 3, 3, 3]⟩
    dassToday := ⟨4, 5, 2⟩
    highPoint := ("q1", 3)
    lowPoint := ("q1", 3)
    coreAvg := 3
    rotatingAvg := 3
    submittedAt := i }

def c4Store : MoodStore :=
  { logs := [c4Log 1 "2026-01-01", c4Log 2 "2026-01-02", c4Log 3 "2026-01-03",
      c4Log 4 "2026-01-04", c4Log 5 "2026-01-05", c4Log 6 "2026-01-06"]
    weekly := [] }

def c4Payload : QuizPayload :=
  { coreScores := some ⟨3, 3, 3, 3⟩
    rotatingScores := some ⟨"social", [3, 3, 3, 3, 3]⟩
    dassToday := some ⟨1, 2, 3⟩
    date := some "2026-01-07" }

theorem weekly_aggregation_trigger_and_totals_spot :
    (submitDailyQuiz c4Store "u" c4Payload "2026-01-07" 7).1.weekly
      ≠ c4Store.weekly := by
  have h := weekly_aggregation_trigger_and_totals c4Store "u" c4Payload
    "2026-01-07" 7 (by decide) (by decide) (by decide)
  exact h.1.mpr (by decide)

/-! ## Upsert: key-based overwrite semantics -/

theorem map_replace_filter {logs : List MoodLog} {log : MoodLog}
    (hnd : (logs.map (fun l => l.docId)).Nodup)
    (hin : ∃ l ∈ logs, l.docId = log.docId) :
    (logs.map (fun l => if l.docId == log.docId then log else l)).filter
      (fun l => l.docId == log.docId) = [log] := by
  induction logs with
  | nil => simp at hin
  | cons x xs ih =>
    simp only [List.map_cons, List.nodup_cons] at hnd
    by_cases hx : x.docId = log.docId
    · have htail : ∀ l ∈ xs, l.docId ≠ log.docId := by
        intro l hl hcon
        apply hnd.1
        rw [hx, ← hcon]
        exact List.mem_map_of_mem (fun l => l.docId) hl
      have hmt : xs.map (fun l => if l.docId == log.docId then log else l)
          = xs := by
        rw [List.map_congr_left (g := id) (fun a ha => by
          simp [htail a ha]), List.map_id]
      simp only [List.map_cons, hmt]
      rw [if_pos (beq_iff_eq.mpr hx)]
      rw [List.filter_cons_of_pos (by simp)]
      rw [List.filter_eq_nil_iff.mpr (by
        intro a ha
        simp [htail a ha])]
    · rcases hin with ⟨l, hl, hld⟩
      rcases List.mem_cons.mp hl with rfl | hl
      · exact absurd hld hx
      · simp only [List.map_cons]
        rw [if_neg (by simpa using hx)]
        rw [List.filter_cons_of_neg (by simpa using hx)]
        exact ih hnd.2 ⟨l, hl, hld⟩

theorem upsert_filter_self {logs : List MoodLog} {log : MoodLog}
    (hnd : (logs.map (fun l => l.docId)).Nodup) :
    (upsertDailyMoodLog logs log).filter (fun l => l.docId == log.docId)
      = [log] := by
  unfold upsertDailyMoodLog
  split
  · next hany =>
    apply map_replace_filter hnd
    simpa using hany
  · next hany =>
    rw [List.filter_append]
    rw [List.filter_eq_nil_iff.mpr (by
      intro a ha
      have : ¬∃ l ∈ logs, l.docId = log.docId := by simpa using hany
      intro hcon
      exact this ⟨a, ha, by simpa using hcon⟩)]
    simp

theorem upsert_docIds_nodup {logs : List MoodLog} {log : MoodLog}
    (hnd : (logs.map (fun l => l.docId)).Nodup) :
    ((upsertDailyMoodLog logs log).map (fun l => l.docId)).Nodup := by
  unfold upsertDailyMoodLog
  split
  · next hany =>
    have hmm : (logs.map (fun l => if l.docId == log.docId then log else l)).map
        (fun l => l.docId) = logs.map (fun l => l.docId) := by
      rw [List.map_map]
      apply List.map_congr_left
      intro a _ha
      by_cases hx : (a.docId == log.docId) = true
      · simp only [Function.comp_apply, if_pos hx]
        exact (beq_iff_eq.mp hx).symm
      · simp only [Function.comp_apply, if_neg hx]
    rw [hmm]
    exact hnd
  · next hany =>
    rw [List.map_append, List.map_singleton]
    apply List.Nodup.append hnd (List.nodup_singleton _)
    intro a ha hb
    simp only [List.mem_singleton] at hb
    obtain ⟨l, hl, rfl⟩ := List.mem_map.mp ha
    have : ¬∃ l ∈ logs, (l.docId == log.docId) = true := by simpa using hany
    exact this ⟨l, hl, by simp [hb]⟩

/-- C7: submitting a valid quiz twice for the same `(user, date)` leaves
exactly one stored record under the composite key `{user_id}_{date}`, and its
content is the document built from the second payload; document-id uniqueness
of the store is preserved. -/
theorem quiz_upsert_idempotent (st : MoodStore) (user : String)
    (p1 p2 : QuizPayload) (d today1 today2 : String) (t1 t2 : ℕ)
    (h1 : quizValid p1 = true) (h2 : quizValid p2 = true)
    (hd1 : p1.date = some d) (hd2 : p2.date = some d) (hdne : d ≠ "")
    (hnd : (st.logs.map (fun l => l.docId)).Nodup) :
    ((submitDailyQuiz (submitDailyQuiz st user p1 today1 t1).1 user p2 today2
        t2).1.logs.filter (fun l => l.docId == user ++ "_" ++ d))
      = [buildDailyLog user p2 d t2] ∧
    (((submitDailyQuiz (submitDailyQuiz st user p1 today1 t1).1 user p2 today2
        t2).1.logs.map (fun l => l.docId)).Nodup) := by
  have hres1 : resolveQuizDate p1 today1 = d := by
    simp [resolveQuizDate, hd1, hdne]
  have hres2 : resolveQuizDate p2 today2 = d := by
    simp [resolveQuizDate, hd2, hdne]
  have hlogs1 : (submitDailyQuiz st user p1 today1 t1).1.logs
      = upsertDailyMoodLog st.logs (buildDailyLog user p1 d t1) := by
    rw [show submitDailyQuiz st user p1 today1 t1
        = submitValidQuiz st user p1 today1 t1 from by
      simp [submitDailyQuiz, h1]]
    rw [submitValidQuiz_logs, hres1]
  have hnd1 : ((submitDailyQuiz st user p1 today1 t1).1.logs.map
      (fun l => l.docId)).Nodup := by
    rw [hlogs1]
    exact upsert_docIds_nodup hnd
  have hlogs2 : (submitDailyQuiz (submitDailyQuiz st user p1 today1 t1).1 user
        p2 today2 t2).1.logs
      = upsertDailyMoodLog (submitDailyQuiz st user p1 today1 t1).1.logs
          (buildDailyLog user p2 d t2) := by
    rw [show submitDailyQuiz (submitDailyQuiz st user p1 today1 t1).1 user p2
          today2 t2
        = submitValidQuiz (submitDailyQuiz st user p1 today1 t1).1 user p2
          today2 t2 from by
      simp [submitDailyQuiz, h2]]
    rw [submitValidQuiz_logs, hres2]
  constructor
  · rw [hlogs2]
    have hf := @upsert_filter_self (submitDailyQuiz st user p1 today1 t1).1.logs
      (buildDailyLog user p2 d t2) hnd1
    simpa [buildDailyLog] using hf
  · rw [hlogs2]
    exact upsert_docIds_nodup hnd1

def c7PayloadA : QuizPayload :=
  { coreScores := some ⟨1, 2, 3, 4⟩
    rotatingScores := some ⟨"mindfulness", [5, 4, 3, 2, 1]⟩
    dassToday := some ⟨2, 3, 4⟩
    date := some "2026-02-01" }

def c7PayloadB : QuizPayload :=
  { coreScores := some ⟨5, 5, 5, 5⟩
    rotatingScores := some ⟨"mindfulness", [1, 1, 1, 1, 1]⟩
    dassToday := some ⟨1, 1, 1⟩
    date := some "2026-02-01" }

theorem quiz_upsert_idempotent_spot :
    ((submitDailyQuiz (submitDailyQuiz ⟨[], []⟩ "u" c7PayloadA "t" 1).1 "u"
        c7PayloadB "t" 2).1.logs.filter
      (fun l => l.docId == "u" ++ "_" ++ "2026-02-01"))
      = [buildDailyLog "u" c7PayloadB "2026-02-01" 2] := by
  have h := quiz_upsert_idempotent ⟨[], []⟩ "u" c7PayloadA c7PayloadB
    "2026-02-01" "t" "t" 1 2 (by decide) (by decide) rfl rfl (by decide)
    (by decide)
  exact h.1

/-! ## Chat memory service (`stressease/services/chat/chat_memory_service.py`)
— data model

A persisted message row and its typed LangChain form (`HumanMessage` /
`AIMessage`). -/

structure StoredMsg where
  role : String
  content : String
  timestamp : ℕ
  turn : ℕ
deriving DecidableEq

inductive ChatMsg where
  | human (content : String)
  | ai (content : String)
deriving DecidableEq

/-! ## LLM chat service (`stressease/services/chat/llm_service.py`)

The response validator and its fixed replacement messages, the reply
generator with its two fixed fallbacks, the mood-log summarizer, and the
user-context builder.  The conversation chain is represented by its
personalization payload (the composed user-context string); the constant
master-prompt template wrapping it plays no role in any verified claim. -/

def sosRedirectMessage : String :=
  "I notice this is a serious topic. If you're experiencing a crisis, please tap the red 'SOS' button in the chat to connect with professional crisis resources immediately. How can I support you right now?"

def diagnosisSafeMessage : String :=
  "I'm here to listen and support you, but I can't provide medical diagnoses or clinical advice. Consider discussing your feelings with a healthcare professional who can provide personalized guidance. How else can I support you today?"

def medicationSafeMessage : String :=
  "I'm here to provide emotional support, but I can't recommend specific treatments or medications. A healthcare professional would be the best person to discuss treatment options with you. Is there something else on your mind that you'd like to talk about?"

def emptyResponseFallback : String :=
  "I'm sorry, I couldn't generate a helpful response. How else can I support you today?"

def connectionTroubleFallback : String :=
  "I'm having trouble connecting right now. Could we try again in a moment?"

def crisisKeywords : List String :=
  ["suicide", "self-harm", "kill yourself", "end it all", "hurt myself", "die"]

def diagnosisPatterns : List String :=
  ["you have ", "you are suffering from", "you might have", "you probably have",
    "sounds like you have", "diagnosis", "diagnose", "condition is", "disorder",
    "i diagnose", "you exhibit symptoms of", "clinical depression",
    "clinical anxiety", "you are experiencing", "you are exhibiting",
    "pathological", "psychiatric condition"]

def medicationPatterns : List String :=
  ["you should take", "you need to take", "prescribe", "medication", "dosage",
    "you should try", "treatment plan", "medical treatment", "therapy regimen"]

/-- `validate_gemini_response`: `none` for empty/whitespace-only input,
otherwise the first matching fixed replacement (crisis, then diagnosis, then
medication patterns, checked case-insensitively as substrings), else the
input unchanged. -/
def validateGeminiResponse (response : String) : Option String :=
  if response.data.all pyIsSpace then none
  else
    let responseLower := pyLower response
    if crisisKeywords.any (fun k => pyContains responseLower k) then
      some sosRedirectMessage
    else if diagnosisPatterns.any (fun k => pyContains responseLower k) then
      some diagnosisSafeMessage
    else if medicationPatterns.any (fun k => pyContains responseLower k) then
      some medicationSafeMessage
    else some response

/-- `generate_chat_response`: the chain invocation is the oracle
`invokeResult`; a raise yields the connection-trouble fallback, a validated
`None` the apology fallback, otherwise the validated text. -/
def generateChatResponse (invokeResult : Except Unit String)
    (_chain _userMessage : String) (_history : List ChatMsg) : String :=
  match invokeResult with
  | .error _ => connectionTroubleFallback
  | .ok response =>
    match validateGeminiResponse response with
    | none => emptyResponseFallback
    | some validated => validated

structure UserProfile where
  name : Option String
  age : Option ℕ
  healthConditions : List String
  stressTriggers : List String
  goals : List String
deriving DecidableEq

/-- `build_user_context` (Python truthiness: empty strings, zero age, and
empty lists skip their line). -/
def buildUserContext (userProfile : Option UserProfile) (moodSummary : String) :
    String :=
  let contextParts :=
    (match userProfile with
      | some p =>
        ["USER PROFILE CONTEXT:"]
          ++ (if (p.name.getD "") != "" then
                ["- Name: " ++ p.name.getD ""] else [])
          ++ (if (p.age.getD 0) != 0 then
                ["- Age: " ++ toString (p.age.getD 0)] else [])
          ++ (if !p.healthConditions.isEmpty then
                ["- Health considerations: "
                  ++ String.intercalate ", " p.healthConditions] else [])
          ++ (if !p.stressTriggers.isEmpty then
                ["- Known stress triggers: "
                  ++ String.intercalate ", " p.stressTriggers] else [])
          ++ (if !p.goals.isEmpty then
                ["- Personal goals: "
                  ++ String.intercalate ", " p.goals] else [])
      | none =>
        ["USER PROFILE CONTEXT:",
          "(Profile incomplete - provide general support)"])
      ++ (if moodSummary != "" then
            ["\nMOOD CONTEXT:", "Recent mood pattern: " ++ moodSummary]
          else
            ["\nMOOD CONTEXT:", "(No mood history available yet)"])
  String.intercalate "\n" contextParts

/-! ## Chat memory service — operations -/

/-- Stable insertion step for the store's
`order_by(timestamp, ASCENDING)` query. -/
def insertMsgAsc (x : StoredMsg) : List StoredMsg → List StoredMsg
  | [] => [x]
  | y :: ys =>
    if x.timestamp < y.timestamp then x :: y :: ys else y :: insertMsgAsc x ys

def sortMsgsAsc : List StoredMsg → List StoredMsg
  | [] => []
  | x :: xs => insertMsgAsc x (sortMsgsAsc xs)

/-- Row → LangChain message conversion inside `load_conversation_memory`:
roles other than `user` / `assistant` are skipped. -/
def storedToChatMsg (m : StoredMsg) : Option ChatMsg :=
  if m.role == "user" then some (.human m.content)
  else if m.role == "assistant" then some (.ai m.content)
  else none

/-- `load_conversation_memory`: the query orders by timestamp ascending and
applies `limit(max_messages)`, then each fetched row is converted. -/
def loadConversationMemory (stored : List StoredMsg) (maxMessages : ℕ) :
    List ChatMsg :=
  ((sortMsgsAsc stored).take maxMessages).filterMap storedToChatMsg

/-- `save_conversation_turn`: two rows sharing one timestamp and turn
number. -/
def saveConversationTurn (msgs : List StoredMsg) (userMsg aiMsg : String)
    (turnNumber now : ℕ) : List StoredMsg :=
  msgs ++ [⟨"user", userMsg, now, turnNumber⟩,
    ⟨"assistant", aiMsg, now, turnNumber⟩]

structure SessionMetadata where
  createdAt : ℕ
  lastActivity : ℕ
  status : String
  messageCount : ℕ
  endedAt : Option ℕ
deriving DecidableEq

/-- `end_session`: marks the persisted session metadata `ended` with an end
timestamp. -/
def endSessionUpdate (meta : SessionMetadata) (now : ℕ) : SessionMetadata :=
  { meta with status := "ended", endedAt := some now }

/-- `summarize_mood_logs`: raises when the base model is uninitialized,
returns `""` on no logs, the fixed neutral fallback when the summarization
call raises, and the stripped summary otherwise. -/
def summarizeMoodLogs (baseLlmInit : Bool) (summarizeCall : Except Unit String)
    (moodLogs : List MoodLog) : Except Unit String :=
  if !baseLlmInit then .error ()
  else if moodLogs.isEmpty then .ok ""
  else
    match summarizeCall with
    | .error _ =>
      .ok "User has been tracking their mood regularly over the past week."
    | .ok s => .ok (pyStrip s)

/-! ## Chat API (`stressease/api/chat.py`)

`active_chat_sessions` is the two-level in-process cache
`{user_id: {session_id: {chain, last_activity, message_count}}}`, embedded as
nested association lists.  `ChatEnv` carries the oracles of one request:
`clientOk` is whether `get_firestore_client()` succeeds (it is called before
each service's try-block and its failure propagates), the `...Fetch` fields
are the outcomes of the store reads performed inside those try-blocks (their
exceptions are caught there), the `...Init` flags are whether the two Gemini
handles were initialized (a bare `RuntimeError` is raised before any
try-block when not), and `invokeResult` is the outcome of the chat chain
invocation. -/

structure CacheEntry where
  chain : String
  lastActivity : ℕ
  messageCount : ℕ
deriving DecidableEq

abbrev SessionCache := List (String × List (String × CacheEntry))

def cacheFindUser (c : SessionCache) (u : String) :
    Option (List (String × CacheEntry)) :=
  (c.find? (fun e => e.1 == u)).map (fun e => e.2)

def cacheLookup (c : SessionCache) (u s : String) : Option CacheEntry :=
  match cacheFindUser c u with
  | none => none
  | some m => (m.find? (fun e => e.1 == s)).map (fun e => e.2)

/-- `if user_id not in active_chat_sessions: active_chat_sessions[user_id] = {}` -/
def ensureUser (c : SessionCache) (u : String) : SessionCache :=
  if (c.find? (fun e => e.1 == u)).isSome then c else c ++ [(u, [])]

def sessionMapSet (m : List (String × CacheEntry)) (s : String)
    (e : CacheEntry) : List (String × CacheEntry) :=
  if m.any (fun q => q.1 == s) then
    m.map (fun q => if q.1 == s then (s, e) else q)
  else m ++ [(s, e)]

/-- `active_chat_sessions[user_id][session_id] = {...}` (the user key exists
whenever the code performs this assignment). -/
def cacheInsert (c : SessionCache) (u s : String) (e : CacheEntry) :
    SessionCache :=
  c.map (fun pr => if pr.1 == u then (pr.1, sessionMapSet pr.2 s e) else pr)

/-- `del active_chat_sessions[user_id][session_id]`. -/
def cacheErase (c : SessionCache) (u s : String) : SessionCache :=
  c.map (fun pr =>
    if pr.1 == u then (pr.1, pr.2.filter (fun q => q.1 != s)) else pr)

/-- The in-place `message_count += 1` / `last_activity = utcnow()` update. -/
def cacheBump (c : SessionCache) (u s : String) (now : ℕ) : SessionCache :=
  c.map (fun pr =>
    if pr.1 == u then
      (pr.1, pr.2.map (fun q =>
        if q.1 == s then
          (q.1, ⟨q.2.chain, now, q.2.messageCount + 1⟩)
        else q))
    else pr)

instance {ε α : Type} [DecidableEq ε] [DecidableEq α] :
    DecidableEq (Except ε α) := fun a b =>
  match a, b with
  | .error e1, .error e2 =>
    if h : e1 = e2 then isTrue (by rw [h])
    else isFalse (fun hc => h (Except.error.inj hc))
  | .ok v1, .ok v2 =>
    if h : v1 = v2 then isTrue (by rw [h])
    else isFalse (fun hc => h (Except.ok.inj hc))
  | .error _, .ok _ => isFalse (fun hc => Except.noConfusion hc)
  | .ok _, .error _ => isFalse (fun hc => Except.noConfusion hc)

structure ChatEnv where
  clientOk : Bool
  profileFetch : Except Unit (Option UserProfile)
  moodFetch : Except Unit (List MoodLog)
  baseLlmInit : Bool
  advanceLlmInit : Bool
  summarizeCall : Except Unit String
  historyFetch : Except Unit (List StoredMsg)
  newSessionId : String
  invokeResult : Except Unit String
  now : ℕ
deriving DecidableEq

/-- `get_user_profile`: the client accessor raises before the try-block; any
exception inside it is caught and yields `None`. -/
def getUserProfileE (env : ChatEnv) : Except Unit (Option UserProfile) :=
  if !env.clientOk then .error ()
  else
    match env.profileFetch with
    | .error _ => .ok none
    | .ok p => .ok p

/-- `get_last_daily_mood_logs`: same shape, degrading to `[]`. -/
def getLastMoodLogsE (env : ChatEnv) : Except Unit (List MoodLog) :=
  if !env.clientOk then .error ()
  else
    match env.moodFetch with
    | .error _ => .ok []
    | .ok l => .ok l

/-- `create_conversation_chain`: raises when the advanced model is
uninitialized; the chain is represented by its user-context payload. -/
def createConversationChainE (env : ChatEnv) (userContext : String) :
    Except Unit String :=
  if !env.advanceLlmInit then .error () else .ok userContext

/-- `_create_chain_for_user`. -/
def createChainForUser (env : ChatEnv) : Except Unit String := do
  let userProfile ← getUserProfileE env
  let moodLogs ← getLastMoodLogsE env
  let moodSummary ←
    if moodLogs.isEmpty then pure ""
    else summarizeMoodLogs env.baseLlmInit env.summarizeCall moodLogs
  let userContext := buildUserContext userProfile moodSummary
  createConversationChainE env userContext

/-- `load_conversation_memory` as called from `_load_session`
(`max_messages=25`): the client accessor raises before the try-block, store
errors inside it degrade to `[]`. -/
def loadConversationMemoryE (env : ChatEnv) : Except Unit (List ChatMsg) :=
  if !env.clientOk then .error ()
  else
    match env.historyFetch with
    | .error _ => .ok []
    | .ok stored => .ok (loadConversationMemory stored 25)

inductive SessionResult where
  | failure
  | success (sessionId chain : String) (history : List ChatMsg)
deriving DecidableEq

/-- Python falsiness of the `session_id` payload field (`None` or `""`). -/
def optNonEmpty : Option String → Option String
  | none => none
  | some s => if s == "" then none else some s

/-- `_load_session`: `failure` is the `(None, None, [])` outcome of its
outer exception handler; `create_session_metadata` is scheduled on a
background thread and does not affect the resolve.  The adaptation loop over
the loaded rows is the identity here because `load_conversation_memory`
already returns typed messages. -/
def loadSession (env : ChatEnv) (sessionId : Option String) (userId : String)
    (cache : SessionCache) : SessionResult × SessionCache :=
  let cache1 := ensureUser cache userId
  match optNonEmpty sessionId with
  | none =>
    let sid := env.newSessionId
    match createChainForUser env with
    | .error _ => (.failure, cache1)
    | .ok chain =>
      (.success sid chain [], cacheInsert cache1 userId sid ⟨chain, env.now, 0⟩)
  | some sid =>
    match loadConversationMemoryE env with
    | .error _ => (.failure, cache1)
    | .ok historyMessages =>
      match cacheLookup cache1 userId sid with
      | some entry => (.success sid entry.chain historyMessages, cache1)
      | none =>
        match createChainForUser env with
        | .error _ => (.failure, cache1)
        | .ok chain =>
          (.success sid chain historyMessages,
            cacheInsert cache1 userId sid
              ⟨chain, env.now, historyMessages.length / 2⟩)

inductive ChatResponse where
  | badRequest (error message : String)
  | serverError (error message : String)
  | created (userContent aiContent sessionId : String) (messageCount : ℕ)
deriving DecidableEq

def messageCountOf (c : SessionCache) (u s : String) : ℕ :=
  match cacheLookup c u s with
  | some e => e.messageCount
  | none => 0

/-- `POST /message` (`send_chat_message`): validation, session resolve, reply
generation, synchronous cache count/activity update, 201 response.  The two
`threading.Thread` persistence calls (`save_conversation_turn` with
`turn_number = len(history)//2`, `update_session_activity`) are
fire-and-forget and do not affect the in-process state or the response. -/
def sendChatMessage (env : ChatEnv) (userId message : String)
    (sessionId : Option String) (cache : SessionCache) :
    ChatResponse × SessionCache :=
  let userMessage := pyStrip message
  if userMessage == "" then
    (.badRequest "Invalid message" "Message cannot be empty", cache)
  else if userMessage.length > 1000 then
    (.badRequest "Message too long" "Message must be 1000 characters or less",
      cache)
  else
    match loadSession env sessionId userId cache with
    | (.failure, cache1) =>
      (.serverError "Session error" "Could not initialize chat session", cache1)
    | (.success sid chain historyMessages, cache1) =>
      let aiResponse :=
        generateChatResponse env.invokeResult chain userMessage historyMessages
      let cache2 :=
        if (cacheLookup cache1 userId sid).isSome then
          cacheBump cache1 userId sid env.now
        else cache1
      (.created userMessage aiResponse sid (messageCountOf cache2 userId sid),
        cache2)

inductive EndSessionResponse where
  | badRequest (error message : String)
  | ok (cleanupCount : ℕ)
deriving DecidableEq

/-- `POST /end-session` (`end_chat_session`): cache cleanup count, and the
third component records that the persisted `end_session` status update was
scheduled (it is, in both the hit and the miss case). -/
def endChatSession (userId sessionIdRaw : String) (cache : SessionCache) :
    EndSessionResponse × SessionCache × Bool :=
  let sessionId := pyStrip sessionIdRaw
  if sessionId == "" then
    (.badRequest "Missing session_id" "session_id is required", cache, false)
  else
    match cacheLookup cache userId sessionId with
    | some _ => (.ok 1, cacheErase cache userId sessionId, true)
    | none => (.ok 0, cache, true)

/-! ## Lemmas about the validator and the session cache -/

theorem not_allSpace_of_contains {r k : String}
    (hk : k.data.any (fun c => !pyIsSpace c) = true)
    (hc : pyContains (pyLower r) k = true) :
    r.data.all pyIsSpace = false := by
  by_contra hall
  rw [Bool.not_eq_false] at hall
  have hinf : k.data <:+: (pyLower r).data := of_decide_eq_true hc
  obtain ⟨c, hcmem, hcns⟩ := List.any_eq_true.mp hk
  have hcr : c ∈ (pyLower r).data := hinf.subset hcmem
  have hcr' : c ∈ r.data.map Char.toLower := by simpa [pyLower] using hcr
  obtain ⟨c0, hc0, rfl⟩ := List.mem_map.mp hcr'
  have h0 := List.all_eq_true.mp hall c0 hc0
  have hcases : ((((c0 = ' ' ∨ c0 = '\t') ∨ c0 = '\n') ∨ c0 = '\r')
      ∨ c0 = '\x0b') ∨ c0 = '\x0c' := by
    simpa [pyIsSpace] using h0
  have hlow : Char.toLower c0 = c0 := by
    rcases hcases with ((((rfl | rfl) | rfl) | rfl) | rfl) | rfl <;> decide
  rw [hlow] at hcns
  rw [h0] at hcns
  exact Bool.noConfusion hcns

theorem cacheLookup_ensureUser (c : SessionCache) (u u' s : String) :
    cacheLookup (ensureUser c u) u' s = cacheLookup c u' s := by
  unfold ensureUser
  split
  · rfl
  · next hnone =>
    unfold cacheLookup cacheFindUser
    rw [List.find?_append]
    cases hf : c.find? (fun e => e.1 == u') with
    | some v => simp [hf]
    | none =>
      simp only [hf, Option.none_or]
      by_cases hu : ((u, ([] : List (String × CacheEntry))).1 == u') = true
      · simp [List.find?, hu]
      · simp [List.find?, hu]

theorem find?_filter_ne (m : List (String × CacheEntry)) (s : String) :
    (m.filter (fun q => q.1 != s)).find? (fun q => q.1 == s) = none := by
  rw [List.find?_eq_none]
  intro x hx
  have hne := (List.mem_filter.mp hx).2
  simp only [bne_iff_ne, ne_eq] at hne
  simpa using hne

theorem cacheLookup_erase (c : SessionCache) (u s : String) :
    cacheLookup (cacheErase c u s) u s = none := by
  induction c with
  | nil => rfl
  | cons pr c ih =>
    simp only [cacheErase, List.map_cons]
    by_cases hu : (pr.1 == u) = true
    · rw [if_pos hu]
      unfold cacheLookup cacheFindUser
      rw [List.find?_cons_of_pos _ (by simpa using hu)]
      simp [find?_filter_ne]
    · rw [if_neg hu]
      unfold cacheLookup cacheFindUser at ih ⊢
      unfold cacheErase at ih
      rw [List.find?_cons_of_neg _ (by simpa using hu)]
      exact ih

/-- C10: total behavior of the response validator: `none` exactly on
empty/whitespace-only input; the fixed SOS redirect whenever a crisis keyword
occurs case-insensitively as a substring; otherwise the respective fixed safe
alternative for diagnosis-language and medication/treatment patterns; all
other inputs returned unchanged. -/
theorem validate_response_total_behavior :
    (∀ r : String,
      validateGeminiResponse r = none ↔ r.data.all pyIsSpace = true) ∧
    (∀ r : String, r ≠ "" →
      crisisKeywords.any (fun k => pyContains (pyLower r) k) = true →
      validateGeminiResponse r = some sosRedirectMessage) ∧
    (∀ r : String,
      crisisKeywords.any (fun k => pyContains (pyLower r) k) = false →
      diagnosisPatterns.any (fun k => pyContains (pyLower r) k) = true →
      validateGeminiResponse r = some diagnosisSafeMessage) ∧
    (∀ r : String,
      crisisKeywords.any (fun k => pyContains (pyLower r) k) = false →
      diagnosisPatterns.any (fun k => pyContains (pyLower r) k) = false →
      medicationPatterns.any (fun k => pyContains (pyLower r) k) = true →
      validateGeminiResponse r = some medicationSafeMessage) ∧
    (∀ r : String, r.data.all pyIsSpace = false →
      crisisKeywords.any (fun k => pyContains (pyLower r) k) = false →
      diagnosisPatterns.any (fun k => pyContains (pyLower r) k) = false →
      medicationPatterns.any (fun k => pyContains (pyLower r) k) = false →
      validateGeminiResponse r = some r) := by
  refine ⟨?_, ?_, ?_, ?_, ?_⟩
  · intro r
    constructor
    · intro h
      by_cases hall : r.data.all pyIsSpace = true
      · exact hall
      · exfalso
        rw [show validateGeminiResponse r
            = (if crisisKeywords.any (fun k => pyContains (pyLower r) k) then
                some sosRedirectMessage
              else if diagnosisPatterns.any (fun k => pyContains (pyLower r) k)
              then some diagnosisSafeMessage
              else if medicationPatterns.any
                  (fun k => pyContains (pyLower r) k) then
                some medicationSafeMessage
              else some r) from by
          simp only [validateGeminiResponse]
          rw [if_neg hall]] at h
        split_ifs at h
    · intro hws
      simp [validateGeminiResponse, hws]
  · intro r _hne hany
    obtain ⟨k, hkmem, hk⟩ := List.any_eq_true.mp hany
    have hks : k.data.any (fun c => !pyIsSpace c) = true := by
      fin_cases hkmem <;> decide
    have hws := not_allSpace_of_contains hks hk
    simp only [validateGeminiResponse]
    rw [if_neg (by simp [hws]), if_pos hany]
  · intro r hcf hdt
    obtain ⟨k, hkmem, hk⟩ := List.any_eq_true.mp hdt
    have hks : k.data.any (fun c => !pyIsSpace c) = true := by
      fin_cases hkmem <;> decide
    have hws := not_allSpace_of_contains hks hk
    simp only [validateGeminiResponse]
    rw [if_neg (by simp [hws]), if_neg (by simp [hcf]), if_pos hdt]
  · intro r hcf hdf hmt
    obtain ⟨k, hkmem, hk⟩ := List.any_eq_true.mp hmt
    have hks : k.data.any (fun c => !pyIsSpace c) = true := by
      fin_cases hkmem <;> decide
    have hws := not_allSpace_of_contains hks hk
    simp only [validateGeminiResponse]
    rw [if_neg (by simp [hws]), if_neg (by simp [hcf]),
      if_neg (by simp [hdf]), if_pos hmt]
  · intro r hws hcf hdf hmf
    simp only [validateGeminiResponse]
    rw [if_neg (by simp [hws]), if_neg (by simp [hcf]),
      if_neg (by simp [hdf]), if_neg (by simp [hmf])]

theorem validate_response_total_behavior_spot :
    validateGeminiResponse "suicide" = some sosRedirectMessage ∧
    validateGeminiResponse "You seem thoughtful." = some "You seem thoughtful." := by
  have h := validate_response_total_behavior
  exact ⟨h.2.1 "suicide" (by decide) (by decide),
    h.2.2.2.2 "You seem thoughtful." (by decide) (by decide) (by decide)
      (by decide)⟩

def respAiContent : ChatResponse → Option String
  | .created _ ai _ _ => some ai
  | _ => none

def respIsCreated : ChatResponse → Bool
  | .created _ _ _ _ => true
  | _ => false

/-- C9: for a validated message and a successfully resolved session, a raise
from the reply-generation call yields a 201 response whose assistant reply is
the fixed connection-trouble fallback, and an empty/whitespace model reply
yields a 201 response whose assistant reply is the fixed apology fallback. -/
theorem generation_failure_fallback_reply (env : ChatEnv)
    (userId message : String) (sessionId : Option String)
    (cache cache1 : SessionCache) (sid chain : String) (history : List ChatMsg)
    (hmsg1 : pyStrip message ≠ "") (hmsg2 : (pyStrip message).length ≤ 1000)
    (hload : loadSession env sessionId userId cache
      = (.success sid chain history, cache1)) :
    (env.invokeResult = .error () →
      respIsCreated (sendChatMessage env userId message sessionId cache).1
          = true ∧
      respAiContent (sendChatMessage env userId message sessionId cache).1
          = some connectionTroubleFallback) ∧
    (∀ s : String, env.invokeResult = .ok s → s.data.all pyIsSpace = true →
      respIsCreated (sendChatMessage env userId message sessionId cache).1
          = true ∧
      respAiContent (sendChatMessage env userId message sessionId cache).1
          = some emptyResponseFallback) := by
  have hsend : sendChatMessage env userId message sessionId cache
      = (.created (pyStrip message)
          (generateChatResponse env.invokeResult chain (pyStrip message)
            history)
          sid
          (messageCountOf
            (if (cacheLookup cache1 userId sid).isSome then
              cacheBump cache1 userId sid env.now
            else cache1) userId sid),
        if (cacheLookup cache1 userId sid).isSome then
          cacheBump cache1 userId sid env.now
        else cache1) := by
    simp only [sendChatMessage]
    rw [if_neg (by simpa using hmsg1), if_neg (by omega), hload]
  constructor
  · intro herr
    rw [hsend]
    refine ⟨rfl, ?_⟩
    simp [respAiContent, generateChatResponse, herr]
  · intro s hok hws
    rw [hsend]
    refine ⟨rfl, ?_⟩
    have hval : validateGeminiResponse s = none := by
      simp [validateGeminiResponse, hws]
    simp [respAiContent, generateChatResponse, hok, hval]

def c9Env : ChatEnv :=
  { clientOk := true
    profileFetch := .ok none
    moodFetch := .ok []
    baseLlmInit := true
    advanceLlmInit := true
    summarizeCall := .ok ""
    historyFetch := .ok []
    newSessionId := "s-new"
    invokeResult := .error ()
    now := 0 }

theorem generation_failure_fallback_reply_spot :
    respAiContent (sendChatMessage c9Env "u1" "hi" none []).1
      = some connectionTroubleFallback := by
  have h := generation_failure_fallback_reply c9Env "u1" "hi" none []
    (cacheInsert (ensureUser [] "u1") "u1" "s-new"
      ⟨buildUserContext none "", 0, 0⟩)
    "s-new" (buildUserContext none "") []
    (by decide) (by decide) rfl
  exact (h.1 rfl).2

/-- C8: ending a session with a (stripped) nonempty token always succeeds,
always schedules the persisted `ended` status update, removes the cache entry
and reports `cleanup_count = 1` when the pair was cached, and leaves the
cache unchanged with `cleanup_count = 0` when it was not; the scheduled
persisted update sets the session status to `"ended"`. -/
theorem end_session_idempotent_cleanup (userId sessionIdRaw : String)
    (cache : SessionCache) (hsid : pyStrip sessionIdRaw ≠ "") :
    (endChatSession userId sessionIdRaw cache).2.2 = true ∧
    (cacheLookup cache userId (pyStrip sessionIdRaw) = none →
      (endChatSession userId sessionIdRaw cache).1 = .ok 0 ∧
      (endChatSession userId sessionIdRaw cache).2.1 = cache) ∧
    (∀ e, cacheLookup cache userId (pyStrip sessionIdRaw) = some e →
      (endChatSession userId sessionIdRaw cache).1 = .ok 1 ∧
      cacheLookup (endChatSession userId sessionIdRaw cache).2.1 userId
        (pyStrip sessionIdRaw) = none) ∧
    (∀ meta now, (endSessionUpdate meta now).status = "ended") := by
  cases hl : cacheLookup cache userId (pyStrip sessionIdRaw) with
  | none =>
    have hend : endChatSession userId sessionIdRaw cache = (.ok 0, cache, true) := by
      simp only [endChatSession]
      rw [if_neg (by simpa using hsid), hl]
    rw [hend]
    refine ⟨rfl, fun _ => ⟨rfl, rfl⟩, ?_, fun meta now => rfl⟩
    intro e he
    exact Option.noConfusion he
  | some entry =>
    have hend : endChatSession userId sessionIdRaw cache
        = (.ok 1, cacheErase cache userId (pyStrip sessionIdRaw), true) := by
      simp only [endChatSession]
      rw [if_neg (by simpa using hsid), hl]
    rw [hend]
    refine ⟨rfl, ?_, ?_, fun meta now => rfl⟩
    · intro hnone
      exact Option.noConfusion hnone
    · intro e _he
      exact ⟨rfl, cacheLookup_erase cache userId (pyStrip sessionIdRaw)⟩

theorem end_session_idempotent_cleanup_spot :
    (endChatSession "u1" " s9 " []).1 = EndSessionResponse.ok 0 ∧
    (endChatSession "u1" " s9 " []).2.2 = true := by
  have h := end_session_idempotent_cleanup "u1" " s9 " [] (by decide)
  exact ⟨(h.2.1 (by decide)).1, h.1⟩

/-- The session token a resolve settles on: the supplied one when truthy,
otherwise the freshly generated id. -/
def resolvedToken (env : ChatEnv) (sessionId : Option String) : String :=
  (optNonEmpty sessionId).getD env.newSessionId

/-- C2 (amended): when an exception propagates uncaught into
`_load_session` — i.e. chain construction fails because the store client
accessor or an uninitialized LLM handle raises — the request is answered with
the 500 `Could not initialize chat session` error and no cache entry is left
for the `(user, token)` pair. -/
theorem resolve_uncaught_failure_no_cache_entry (env : ChatEnv)
    (userId message : String) (sessionId : Option String)
    (cache : SessionCache)
    (hmsg1 : pyStrip message ≠ "") (hmsg2 : (pyStrip message).length ≤ 1000)
    (hchain : createChainForUser env = .error ())
    (hfresh : cacheLookup cache userId (resolvedToken env sessionId) = none) :
    (sendChatMessage env userId message sessionId cache).1
      = .serverError "Session error" "Could not initialize chat session" ∧
    cacheLookup (sendChatMessage env userId message sessionId cache).2 userId
      (resolvedToken env sessionId) = none := by
  have hload : loadSession env sessionId userId cache
      = (.failure, ensureUser cache userId) := by
    simp only [loadSession]
    cases hopt : optNonEmpty sessionId with
    | none =>
      simp only [hchain]
    | some sid =>
      cases hmem : loadConversationMemoryE env with
      | error e => rfl
      | ok hist =>
        have hnone : cacheLookup (ensureUser cache userId) userId sid = none := by
          rw [cacheLookup_ensureUser]
          have hf := hfresh
          rw [resolvedToken, hopt] at hf
          exact hf
        simp only [hnone, hchain]
  have hmain : sendChatMessage env userId message sessionId cache
      = (.serverError "Session error" "Could not initialize chat session",
        ensureUser cache userId) := by
    simp only [sendChatMessage]
    rw [if_neg (by simpa using hmsg1), if_neg (by omega), hload]
  rw [hmain]
  exact ⟨rfl, by rw [cacheLookup_ensureUser]; exact hfresh⟩

def c2FailEnv : ChatEnv :=
  { clientOk := true
    profileFetch := .ok none
    moodFetch := .ok []
    baseLlmInit := true
    advanceLlmInit := false
    summarizeCall := .ok ""
    historyFetch := .ok []
    newSessionId := "sid-f"
    invokeResult := .ok "ok"
    now := 0 }

theorem resolve_uncaught_failure_no_cache_entry_spot :
    (sendChatMessage c2FailEnv "u1" "hello" none []).1
      = ChatResponse.serverError "Session error"
          "Could not initialize chat session" ∧
    cacheLookup (sendChatMessage c2FailEnv "u1" "hello" none []).2 "u1"
      "sid-f" = none := by
  have h := resolve_uncaught_failure_no_cache_entry c2FailEnv "u1" "hello"
    none [] (by decide) (by decide) (by decide) (by decide)
  exact h

/-- Environment in which the Firestore read performed inside
`get_user_profile` raises (and is caught there), everything else healthy. -/
def c2SwallowEnv : ChatEnv :=
  { clientOk := true
    profileFetch := .error ()
    moodFetch := .ok []
    baseLlmInit := true
    advanceLlmInit := true
    summarizeCall := .ok ""
    historyFetch := .ok []
    newSessionId := "sid-1"
    invokeResult := .ok "Hello there."
    now := 0 }

/-- C2 counterexample: an exception raised during the profile fetch is caught
inside `get_user_profile` and degrades to a `None` profile, so the resolve
succeeds — the request is answered 201 with a reply, and a cache entry for
the `(user, token)` pair IS left behind, contradicting the claim as stated. -/
theorem resolve_swallows_profile_fetch_exception :
    c2SwallowEnv.profileFetch = Except.error () ∧
    (sendChatMessage c2SwallowEnv "u1" "hello" none []).1
      = ChatResponse.created "hello" "Hello there." "sid-1" 1 ∧
    cacheLookup (sendChatMessage c2SwallowEnv "u1" "hello" none []).2 "u1"
      "sid-1" ≠ none := by
  refine ⟨rfl, by decide, by decide⟩

/-- Modelled from the specification's words: the MOST RECENT `k` persisted
entries of the session, in chronological (oldest-first) order, converted to
role-tagged messages — what the replay window is specified to contain. -/
def specMostRecentHistory (stored : List StoredMsg) (k : ℕ) : List ChatMsg :=
  ((sortMsgsAsc stored).drop ((sortMsgsAsc stored).length - k)).filterMap
    storedToChatMsg

/-- A session with 26 persisted messages, timestamps `0..25`, alternating
user/assistant roles, contents `m0..m25`. -/
def c1Store : List StoredMsg :=
  (List.range 26).map (fun i =>
    { role := if i % 2 == 0 then "user" else "assistant"
      content := "m" ++ toString i
      timestamp := i
      turn := i / 2 })

def c1Env : ChatEnv :=
  { clientOk := true
    profileFetch := .ok none
    moodFetch := .ok []
    baseLlmInit := true
    advanceLlmInit := true
    summarizeCall := .ok ""
    historyFetch := .ok c1Store
    newSessionId := "fresh"
    invokeResult := .ok "ok"
    now := 0 }

def c1Cache : SessionCache := [("u1", [("s1", ⟨"ctx", 0, 13⟩)])]

/-- C1: the history `_load_session` supplies to reply generation on a cached
session is `load_conversation_memory`'s result, and on a session holding 26
persisted messages that result is the 25 OLDEST entries (ascending order plus
`limit`), not the 25 most recent the specification (and the code's own
comment) call for: the oldest message `m0` is included and the newest `m25`
dropped, while the specified replay window starts at `m1`. -/
theorem load_history_returns_oldest_not_most_recent :
    (loadSession c1Env (some "s1") "u1" c1Cache).1
      = SessionResult.success "s1" "ctx" (loadConversationMemory c1Store 25) ∧
    loadConversationMemory c1Store 25 ≠ specMostRecentHistory c1Store 25 ∧
    (loadConversationMemory c1Store 25).head? = some (ChatMsg.human "m0") ∧
    (specMostRecentHistory c1Store 25).head? = some (ChatMsg.ai "m1") ∧
    (loadConversationMemory c1Store 25).length = 25 := by
  refine ⟨by decide, by decide, by decide, by decide, by decide⟩
